import Mathlib

/-!
# Verification of the helios-stack execution-and-isolation subsystem

Shallow embedding of `src/claude/cli_interface.py` and
`src/claude/workspace_manager.py`, together with the configuration fields of
`src/core/config.py` that those modules consult.  External effects (the OS
process layer, the filesystem, the git tool) are modelled by explicit
oracle parameters describing the environment's response; the Python control
flow around them is translated function by function.
-/

namespace Helios

/-! ## Configuration (`src/core/config.py`)

Only the fields read by the two modules under verification are embedded.
`validate` enforces `0 < max_concurrent ≤ 10`, so `max_concurrent` is a `Nat`.
Timeouts are integers in the source (`CLAUDE_TIMEOUT` parsed with `int`). -/

structure ClaudeConfig where
  cli_path : String
  max_concurrent : Nat
  default_timeout : Int
deriving DecidableEq, Repr

structure WorkspaceConfig where
  base_dir : String
  use_worktrees : Bool
  cleanup_on_exit : Bool
  worktree_prefix : String
deriving DecidableEq, Repr

structure ResearchConfig where
  claude : ClaudeConfig
  workspace : WorkspaceConfig
  dry_run : Bool
  agent_dir : String
deriving DecidableEq, Repr

/-- Python's `x or default` applied to an `Optional[int]`: both `None` and the
falsy integer `0` select the default; any other integer (negative included)
is kept.  This is the idiom on lines 95 (`timeout`) and 202
(`max_concurrent`) of `cli_interface.py`. -/
def pyOrInt (x : Option Int) (d : Int) : Int :=
  match x with
  | none => d
  | some v => if v = 0 then d else v

/-- Same Python `or` idiom at type `Nat` (used for `max_concurrent`). -/
def pyOrNat (x : Option Nat) (d : Nat) : Nat :=
  match x with
  | none => d
  | some v => if v = 0 then d else v

/-! ## Paths

`pathlib` paths are modelled as a parent directory plus a final component:
the manager only ever forms `base_dir / workspace_id` and reads back
`path.name`. -/

structure WsPath where
  parent : String
  name : String
deriving DecidableEq, Repr

/-! ## The execution interface (`src/claude/cli_interface.py`) -/

/-- Result dataclass `ClaudeResult`.  `execution_time` (a float measured from
the event-loop clock) is modelled in milliseconds as an integer. -/
structure ClaudeResult where
  success : Bool
  output : String
  error : String
  exit_code : Int
  execution_time : Int
  command : String
  workspace : Option WsPath := none
deriving DecidableEq, Repr

/-- `combined_output` property of `ClaudeResult`. -/
def ClaudeResult.combined_output (r : ClaudeResult) : String :=
  r.output ++ (if r.error ≠ "" then "\n" ++ r.error else "")

/-- The exceptions `execute` can raise (`src/core/exceptions.py`):
`ClaudeTimeoutError` carries a message and the timeout value. -/
inductive ClaudeError where
  | timeoutError (message : String) (timeout_seconds : Int)
deriving DecidableEq, Repr

/-- How the spawned OS process behaves on one invocation: either it exits on
its own with the given code and output streams before the effective timeout
elapses, or it is still running when the timeout fires. -/
inductive ProcBehavior where
  | exits (code : Int) (stdout stderr : String)
  | hangs
deriving DecidableEq, Repr

/-- Observable actions `execute` performs on the process layer, in order. -/
inductive ProcEvent where
  | spawned
  | killed
  | waited
deriving DecidableEq, Repr

/-- `_build_command`: `[cli_path, "-p", prompt]` — an argument vector, the
prompt passed as one argument, never a shell string. -/
def build_command (cli_path prompt : String) : List String :=
  [cli_path, "-p", prompt]

/-- `' '.join(cmd)` as used for the `command` field and dry-run output. -/
def joinSpace : List String → String
  | [] => ""
  | [s] => s
  | s :: rest => s ++ " " ++ joinSpace rest

/-- `ClaudeInterface.execute` (lines 76–170).  Inputs beyond the Python
arguments: `beh` is the spawned process's behaviour and `elapsed` the
event-loop time difference observed on the normal path.  Output: the raised
error or returned result, together with the trace of process-layer events in
the order the code performs them.  Stream decoding
(`decode('utf-8', errors='replace')`) is the identity on the already-decoded
strings of the model. -/
def execute (cfg : ResearchConfig) (prompt : String) (workspace : Option WsPath)
    (timeout : Option Int) (beh : ProcBehavior) (elapsed : Int) :
    Except ClaudeError ClaudeResult × List ProcEvent :=
  let cmd := build_command cfg.claude.cli_path prompt
  let t := pyOrInt timeout cfg.claude.default_timeout
  if cfg.dry_run then
    (.ok { success := true
           output := "[DRY RUN] Would execute: " ++ joinSpace cmd
           error := ""
           exit_code := 0
           execution_time := 100
           command := joinSpace cmd
           workspace := workspace }, [])
  else
    match beh with
    | .hangs =>
        (.error (.timeoutError
            ("Claude execution timed out after " ++ toString t ++ "s") t),
         [.spawned, .killed, .waited])
    | .exits code out err =>
        (.ok { success := decide (code = 0)
               output := out
               error := err
               exit_code := code
               execution_time := elapsed
               command := joinSpace cmd
               workspace := workspace }, [.spawned, .waited])

/-! ## Batch execution (`execute_batch`, lines 195–214)

`execute_batch` builds one task per `(prompt, workspace)` entry, each task
wrapped in `async with semaphore` around `await self.execute(...)`, and awaits
`asyncio.gather(*tasks, return_exceptions=True)`.

Two aspects are embedded separately:

* the **scheduling** of the tasks against the counting semaphore, as a
  small-step transition system (`BatchStep`) over which the concurrency bound
  of claim C1 is an invariant;
* the **result assembly** of `gather(..., return_exceptions=True)`, which
  places each task's returned value or raised exception in the slot of its
  entry, preserving the input order (claim C3). -/

/-- The scheduler-visible phase of one `run_with_semaphore` task:
not yet holding the semaphore / inside `await self.execute` / finished
(permit released, outcome recorded). -/
inductive TaskPhase where
  | pending
  | running
  | done
deriving DecidableEq, Repr

/-- Scheduler state of one batch: the semaphore's counter plus the phase of
each task (in input order). -/
structure BatchState where
  sem : Nat
  tasks : List TaskPhase
deriving DecidableEq, Repr

/-- Initial state of `execute_batch`: `asyncio.Semaphore(max_concurrent)`
(line 203) with every task created but none yet holding a permit. -/
def initBatchState (maxConcurrent : Nat) (numTasks : Nat) : BatchState :=
  { sem := maxConcurrent, tasks := List.replicate numTasks .pending }

/-- One cooperative scheduling step of the batch.  `acquire`: a pending task
passes `async with semaphore` (only possible while the counter is positive;
`asyncio.Semaphore.acquire` decrements it) and enters `self.execute`.
`release`: a task inside `self.execute` finishes (result or exception); the
`async with` block releases the permit, incrementing the counter.  The task
lists are decomposed around the stepping task, so any task may step. -/
inductive BatchStep : BatchState → BatchState → Prop where
  | acquire (sem : Nat) (l r : List TaskPhase) :
      BatchStep ⟨sem + 1, l ++ .pending :: r⟩ ⟨sem, l ++ .running :: r⟩
  | release (sem : Nat) (l r : List TaskPhase) :
      BatchStep ⟨sem, l ++ .running :: r⟩ ⟨sem + 1, l ++ .done :: r⟩

/-- Number of tasks currently inside `self.execute` (in-flight external
processes). -/
def inFlight (s : BatchState) : Nat :=
  s.tasks.count .running

/-- The concurrency bound actually used by `execute_batch` (line 202):
the `max_concurrent` argument, or the configured default when the argument
is `None` (or `0`, by Python `or`). -/
def batchBound (maxConcurrent : Option Nat) (cfg : ResearchConfig) : Nat :=
  pyOrNat maxConcurrent cfg.claude.max_concurrent

/-- `asyncio.gather(*tasks, return_exceptions=True)` (line 214): the outcome
of every task — returned value or raised exception alike — is placed in the
slot of the task's position; nothing is re-raised and no slot is dropped. -/
def gatherReturnExceptions {ε α : Type} (outcomes : List (Except ε α)) :
    List (Except ε α) :=
  outcomes.map id

/-- `ClaudeInterface.execute_batch`.  `behaviour` and `elapsed` give the
process-layer response for each entry (indexed by the entry itself, as the
oracle of the corresponding `execute` call); each task runs
`self.execute(prompt, workspace)` with no explicit timeout (line 207). -/
def execute_batch (cfg : ResearchConfig)
    (prompts : List (String × Option WsPath))
    (behaviour : String × Option WsPath → ProcBehavior)
    (elapsed : String × Option WsPath → Int) :
    List (Except ClaudeError ClaudeResult) :=
  gatherReturnExceptions
    (prompts.map fun e => (execute cfg e.1 e.2 none (behaviour e) (elapsed e)).1)

/-! ## The workspace manager (`src/claude/workspace_manager.py`)

The filesystem is abstracted at workspace granularity: `fs` is the set of
workspace root directories that exist, `gitFile` the set of roots whose
`.git` entry exists *as a file* (the worktree marker tested by
`_is_git_worktree`), `branches` the branches of the host repository, and
`registry` the manager's `active_workspaces` dict (insertion at the front,
lookup by key).  Files *inside* a workspace are modelled separately for
agent-definition seeding. -/

structure WsState where
  fs : List WsPath
  gitFile : List WsPath
  branches : List String
  registry : List (String × WsPath)
deriving DecidableEq, Repr

/-- How the external git tool behaves during `_remove_git_worktree`:
`ok` — `git worktree remove --force` returns exit code 0;
`rcFail` — it returns a non-zero code (warning logged, fallback
`shutil.rmtree(..., ignore_errors=True)`);
`raisedEarly` — spawning the `git worktree remove` process itself raises
(e.g. the git binary is missing), before anything is removed;
`raisedBranch` — the worktree was removed but spawning `git branch -D`
raises.  `git branch -D`'s exit code is ignored by the source, so a failing
(but spawnable) branch deletion is folded into `ok`/`rcFail`. -/
inductive RemovalOutcome where
  | ok
  | rcFail
  | raisedEarly
  | raisedBranch
deriving DecidableEq, Repr

/-- The workspace id: `f"{prefix}{agent_name}_{uuid.uuid4().hex[:8]}"`
(line 41), with the random suffix factored out as an argument. -/
def workspace_id (cfg : ResearchConfig) (agent_name suffix : String) : String :=
  cfg.workspace.worktree_prefix ++ agent_name ++ "_" ++ suffix

/-- The random suffix: the first 8 characters of `uuid.uuid4().hex`
(a 32-character cryptographically random hex string). -/
def wsSuffix (uuidHex : String) : String :=
  uuidHex.take 8

/-- `use_worktree if use_worktree is not None else self.config.workspace.use_worktrees`
(line 42): an explicit `is not None` test, not Python `or`. -/
def resolveUseWorktree (arg : Option Bool) (cfgDefault : Bool) : Bool :=
  arg.getD cfgDefault

/-- `WorkspaceManager.create_workspace` (lines 34–64).  `uuidHex` is the
random draw, `isGitRepo` the result of `_is_git_repo`, and `wtAddOk`
whether `git worktree add` exits with code 0 (a non-zero code raises
`WorkspaceError`, modelled as `.error`).  The worktree branch creates the
directory with a `.git` marker file and the branch `research/<id>`; the temp
branch creates a plain directory (`mkdir(parents=True, exist_ok=True)`; the
best-effort copy of top-level context files happens inside the workspace and
is below the granularity of `fs`).  Either way the record is registered
before the path is returned. -/
def create_workspace (cfg : ResearchConfig) (agent_name : String)
    (use_worktree : Option Bool) (uuidHex : String) (isGitRepo : Bool)
    (wtAddOk : Bool) (st : WsState) : Except String (WsPath × WsState) :=
  let wid := workspace_id cfg agent_name (wsSuffix uuidHex)
  let useWt := resolveUseWorktree use_worktree cfg.workspace.use_worktrees
  let path : WsPath := ⟨cfg.workspace.base_dir, wid⟩
  if useWt && isGitRepo then
    if wtAddOk then
      .ok (path,
        { st with
          fs := path :: st.fs
          gitFile := path :: st.gitFile
          branches := ("research/" ++ wid) :: st.branches
          registry := (wid, path) :: st.registry })
    else
      .error "Failed to create git worktree"
  else
    .ok (path,
      { st with
        fs := path :: st.fs
        registry := (wid, path) :: st.registry })

/-- `WorkspaceManager.cleanup_workspace` (lines 146–169).  If cleanup on
exit is disabled, a logged no-op.  Otherwise, inside `try`: when the path
carries the worktree marker, `_remove_git_worktree` runs (its behaviour
given by `removal`); when either spawn raises, the exception reaches the
`except` clause at line 168, which logs it — so the registry `pop` at
line 164 is skipped.  When no exception escapes, the directory is gone
(via `git worktree remove` or the `rmtree` fallback, both with the marker
and the companion branch) and the record is popped.  The non-worktree path
uses `shutil.rmtree(..., ignore_errors=True)`, which never raises, then
pops. -/
def cleanup_workspace (cfg : ResearchConfig) (removal : RemovalOutcome)
    (st : WsState) (p : WsPath) : WsState :=
  let wid := p.name
  if cfg.workspace.cleanup_on_exit = false then
    st
  else if st.gitFile.contains p then
    match removal with
    | .raisedEarly => st
    | .raisedBranch =>
        { st with
          fs := st.fs.filter (fun q => decide (q ≠ p))
          gitFile := st.gitFile.filter (fun q => decide (q ≠ p)) }
    | _ =>
        { st with
          fs := st.fs.filter (fun q => decide (q ≠ p))
          gitFile := st.gitFile.filter (fun q => decide (q ≠ p))
          branches := st.branches.filter (fun b => decide (b ≠ "research/" ++ wid))
          registry := st.registry.filter (fun e => decide (e.1 ≠ wid)) }
  else
    { st with
      fs := st.fs.filter (fun q => decide (q ≠ p))
      registry := st.registry.filter (fun e => decide (e.1 ≠ wid)) }

/-- `WorkspaceManager.isolated_workspace` (lines 230–239): the
`@asynccontextmanager` wrapper.  `createOutcome` is what
`create_workspace` produced (`st0` is the state when creation failed
before yielding), `body` the caller's block (which may finish normally or
raise, both as `Except`), `removal` the git behaviour during the final
cleanup.  The third component records, in order, the paths on which
`cleanup_workspace` was invoked before the wrapper returned. -/
def isolated_workspace {α : Type} (cfg : ResearchConfig)
    (removal : RemovalOutcome) (st0 : WsState)
    (createOutcome : Except String (WsPath × WsState))
    (body : WsPath → WsState → Except String α × WsState) :
    Except String α × WsState × List WsPath :=
  match createOutcome with
  | .error e => (.error e, st0, [])
  | .ok (ws, st1) =>
      let r := body ws st1
      (r.1, cleanup_workspace cfg removal r.2 ws, [ws])

/-! ## Agent-definition seeding (`_setup_agent_definitions`, lines 126–144)

An agent directory is a list of `(filename, contents)` pairs with distinct
filenames.  `glob("*.md")` matches the entries whose name ends in `.md` and
does not start with a dot (glob's `*` never matches a leading dot);
`shutil.copy2` overwrites the destination file of the same name. -/

/-- Whether a filename is matched by `glob("*.md")`: it ends with `.md`
and does not start with a dot (spelled over the filename's character list). -/
def matchesMdGlob (name : String) : Bool :=
  (".md".data.isSuffixOf name.data) && !(['.'].isPrefixOf name.data)

/-- `shutil.copy2(src_file, dst_dir / name)`: replace any existing file of
that name in the destination directory. -/
def copyFile (dst : List (String × String)) (f : String × String) :
    List (String × String) :=
  f :: dst.filter (fun g => decide (g.1 ≠ f.1))

/-- `for agent_file in src.glob("*.md"): shutil.copy2(...)`. -/
def copyMdFiles (src dst : List (String × String)) : List (String × String) :=
  src.foldl (fun acc f => if matchesMdGlob f.1 then copyFile acc f else acc) dst

/-- `_setup_agent_definitions`: create `<workspace>/.claude/agents`
(initial contents `agentsDir`, empty for a fresh temp workspace), copy the
`*.md` files of the user-level agent directory when it exists, then those of
the project-level directory `.claude/agents` when it exists and is a
different path from the user-level one. -/
def setup_agent_definitions (agentsDir : List (String × String))
    (userExists : Bool) (userAgents : List (String × String))
    (projectExists : Bool) (projectDirEqUser : Bool)
    (projectAgents : List (String × String)) : List (String × String) :=
  let d1 := if userExists then copyMdFiles userAgents agentsDir else agentsDir
  if projectExists && !projectDirEqUser then copyMdFiles projectAgents d1 else d1

/-! ## Concrete sample configuration (the documented defaults of
`src/core/config.py`) used to instantiate theorems with hypotheses. -/

def cfgSample : ResearchConfig :=
  { claude := { cli_path := "claude", max_concurrent := 3, default_timeout := 300 }
    workspace := { base_dir := "/tmp/research_workspaces", use_worktrees := true,
                   cleanup_on_exit := true, worktree_prefix := "research_" }
    dry_run := false
    agent_dir := "/root/.claude/agents" }

/-! ## Claims about `execute` -/

/-- C2: for every non-dry-run call to `execute` whose spawned process has
not exited when the effective timeout elapses, `execute` kills the process,
awaits its termination, and then raises a `ClaudeTimeoutError` carrying the
timeout value; it never returns a normal result in this case (the outcome is
`.error`, and the event trace is spawn, kill, wait, in that order, all
before the raise). -/
theorem execute_timeout_kills_then_raises (cfg : ResearchConfig)
    (prompt : String) (workspace : Option WsPath) (timeout : Option Int)
    (elapsed : Int) (hdry : cfg.dry_run = false) :
    execute cfg prompt workspace timeout .hangs elapsed =
      (.error (.timeoutError
          ("Claude execution timed out after "
            ++ toString (pyOrInt timeout cfg.claude.default_timeout) ++ "s")
          (pyOrInt timeout cfg.claude.default_timeout)),
       [.spawned, .killed, .waited]) := by
  simp [execute, hdry]

/-- Witness for C2: with the default configuration and no explicit timeout,
a hanging process yields the raised timeout error carrying 300 seconds,
after the kill/wait sequence. -/
theorem execute_timeout_kills_then_raises_witness :
    execute cfgSample "p" none none .hangs 0 =
      (.error (.timeoutError "Claude execution timed out after 300s" 300),
       [.spawned, .killed, .waited]) :=
  execute_timeout_kills_then_raises cfgSample "p" none none 0 rfl

/-- C8: for every call to `execute` (not dry-run) whose process exits on
its own with code `c`, `execute` returns (never raises) a result with
`success = (c == 0)`, the exit code, and the decoded stderr in the `error`
field — in particular `success = false` for every non-zero `c`. -/
theorem execute_exit_code_result (cfg : ResearchConfig) (prompt : String)
    (workspace : Option WsPath) (timeout : Option Int) (elapsed : Int)
    (code : Int) (out err : String) (hdry : cfg.dry_run = false) :
    execute cfg prompt workspace timeout (.exits code out err) elapsed =
      (.ok { success := decide (code = 0), output := out, error := err,
             exit_code := code, execution_time := elapsed,
             command := joinSpace (build_command cfg.claude.cli_path prompt),
             workspace := workspace },
       [.spawned, .waited]) := by
  simp [execute, hdry]

/-- Witness for C8: a process exiting with code 2 and stderr `"boom"`
produces a returned (not raised) result with `success = false` and the
stderr in the `error` field. -/
theorem execute_exit_code_result_witness :
    execute cfgSample "q" none none (.exits 2 "" "boom") 5 =
      (.ok { success := false, output := "", error := "boom", exit_code := 2,
             execution_time := 5, command := "claude -p q", workspace := none },
       [.spawned, .waited]) :=
  execute_exit_code_result cfgSample "q" none none 5 2 "" "boom" rfl

/-- C10: an explicit timeout argument of `0` is indistinguishable from an
unspecified timeout: `timeout or default` substitutes the configured default
for every falsy value, so `execute` behaves identically under `some 0` and
`none`. -/
theorem execute_zero_timeout_uses_default (cfg : ResearchConfig)
    (prompt : String) (workspace : Option WsPath) (beh : ProcBehavior)
    (elapsed : Int) :
    execute cfg prompt workspace (some 0) beh elapsed =
      execute cfg prompt workspace none beh elapsed := by
  simp [execute, pyOrInt]

/-! ## Claims about `execute_batch` -/

/-- The semaphore accounting invariant of a batch: free permits plus
in-flight tasks equal the configured bound. -/
def batchInvariant (bound : Nat) (s : BatchState) : Prop :=
  s.sem + inFlight s = bound

/-- Every scheduling step of the batch preserves the semaphore accounting
invariant. -/
theorem batchStep_preserves_invariant (bound : Nat) {s t : BatchState}
    (h : BatchStep s t) : batchInvariant bound s → batchInvariant bound t := by
  cases h with
  | acquire sem l r =>
      simp [batchInvariant, inFlight, List.count_append, List.count_cons]
      omega
  | release sem l r =>
      simp [batchInvariant, inFlight, List.count_append, List.count_cons]
      omega

/-- The invariant holds in the initial state of `execute_batch`. -/
theorem batchInvariant_init (bound numTasks : Nat) :
    batchInvariant bound (initBatchState bound numTasks) := by
  simp [batchInvariant, initBatchState, inFlight, List.count_replicate]

/-- C1: in every state the batch scheduler can reach from the start of
`execute_batch` — with bound `N` equal to the `max_concurrent` argument or
the configured default when unspecified — at most `N` tasks are inside
`execute` (hence at most `N` external processes are in flight): the
semaphore bound is a hard ceiling, for batches of any size. -/
theorem execute_batch_concurrency_bound (cfg : ResearchConfig)
    (maxConcurrent : Option Nat) (numTasks : Nat) (s : BatchState)
    (h : Relation.ReflTransGen BatchStep
      (initBatchState (batchBound maxConcurrent cfg) numTasks) s) :
    inFlight s ≤ batchBound maxConcurrent cfg := by
  have inv : batchInvariant (batchBound maxConcurrent cfg) s := by
    induction h with
    | refl => exact batchInvariant_init _ _
    | tail _ h2 ih => exact batchStep_preserves_invariant _ h2 ih
  simp only [batchInvariant] at inv
  omega

/-- Witness for C1: a batch of 3 prompts with `max_concurrent = 2`, after
two tasks have acquired permits (a reachable state that saturates the
ceiling), has at most 2 processes in flight. -/
theorem execute_batch_concurrency_bound_witness :
    inFlight ⟨0, [.running, .running, .pending]⟩ ≤ batchBound (some 2) cfgSample := by
  apply execute_batch_concurrency_bound cfgSample (some 2) 3
  exact Relation.ReflTransGen.tail
    (Relation.ReflTransGen.tail Relation.ReflTransGen.refl
      (show BatchStep (initBatchState (batchBound (some 2) cfgSample) 3)
          ⟨1, [.running, .pending, .pending]⟩ from
        BatchStep.acquire 1 [] [.pending, .pending]))
    (show BatchStep ⟨1, [.running, .pending, .pending]⟩
        ⟨0, [.running, .running, .pending]⟩ from
      BatchStep.acquire 0 [.running] [.pending])

/-- C3: `execute_batch` returns a list of the same length as its input, in
the same positional order, where slot `i` holds exactly the outcome —
returned result or raised error, as an `Except` value — of the `execute`
call for entry `i`; the batch itself is a total function that returns the
list (one entry's failure never aborts it). -/
theorem execute_batch_preserves_slots (cfg : ResearchConfig)
    (prompts : List (String × Option WsPath))
    (behaviour : String × Option WsPath → ProcBehavior)
    (elapsed : String × Option WsPath → Int) :
    (execute_batch cfg prompts behaviour elapsed).length = prompts.length ∧
    ∀ i : Nat, (execute_batch cfg prompts behaviour elapsed)[i]? =
      (prompts[i]?).map
        (fun e => (execute cfg e.1 e.2 none (behaviour e) (elapsed e)).1) := by
  constructor
  · simp [execute_batch, gatherReturnExceptions]
  · intro i
    simp [execute_batch, gatherReturnExceptions]

/-! ## Claims about the workspace lifecycle -/

/-- An empty manager state, used for concrete instantiations. -/
def stEmpty : WsState := ⟨[], [], [], []⟩

/-- C4: whenever `create_workspace` succeeds and `isolated_workspace`
yields the workspace path to the caller's block, `cleanup_workspace` is
invoked on exactly that path on every exit of the block — normal result or
raised error alike (`body`'s outcome is arbitrary) — and the block's
outcome, error included, propagates only after the cleanup ran. -/
theorem isolated_workspace_always_cleans {α : Type} (cfg : ResearchConfig)
    (removal : RemovalOutcome) (st0 : WsState)
    (createOutcome : Except String (WsPath × WsState))
    (body : WsPath → WsState → Except String α × WsState)
    (ws : WsPath) (st1 : WsState) (hok : createOutcome = .ok (ws, st1)) :
    (isolated_workspace cfg removal st0 createOutcome body).2.2 = [ws] ∧
    (isolated_workspace cfg removal st0 createOutcome body).2.1 =
      cleanup_workspace cfg removal (body ws st1).2 ws ∧
    (isolated_workspace cfg removal st0 createOutcome body).1 = (body ws st1).1 := by
  subst hok
  simp [isolated_workspace]

/-- Witness for C4: a block that raises (`.error "boom"`) still gets its
workspace cleaned up, and the error propagates afterwards. -/
theorem isolated_workspace_always_cleans_witness :
    (isolated_workspace (α := Unit) cfgSample .ok stEmpty
        (.ok (⟨"/tmp/research_workspaces", "research_a_00000000"⟩, stEmpty))
        (fun _ st => (.error "boom", st))).2.2 =
      [⟨"/tmp/research_workspaces", "research_a_00000000"⟩] ∧
    (isolated_workspace (α := Unit) cfgSample .ok stEmpty
        (.ok (⟨"/tmp/research_workspaces", "research_a_00000000"⟩, stEmpty))
        (fun _ st => (.error "boom", st))).2.1 =
      cleanup_workspace cfgSample .ok stEmpty
        ⟨"/tmp/research_workspaces", "research_a_00000000"⟩ ∧
    (isolated_workspace (α := Unit) cfgSample .ok stEmpty
        (.ok (⟨"/tmp/research_workspaces", "research_a_00000000"⟩, stEmpty))
        (fun _ st => (.error "boom", st))).1 = .error "boom" :=
  isolated_workspace_always_cleans cfgSample .ok stEmpty
    (.ok (⟨"/tmp/research_workspaces", "research_a_00000000"⟩, stEmpty))
    (fun _ st => (.error "boom", st))
    ⟨"/tmp/research_workspaces", "research_a_00000000"⟩ stEmpty rfl

/-- Looking up a key in an association list from which every entry with
that key has been filtered out yields nothing. -/
theorem lookup_filter_ne_key {β : Type} (k : String) (l : List (String × β)) :
    List.lookup k (l.filter fun e => decide (e.1 ≠ k)) = none := by
  induction l with
  | nil => rfl
  | cons f rest ih =>
      by_cases h : f.1 = k
      · simpa [List.filter_cons, h] using ih
      · have hb : (k == f.1) = false := beq_eq_false_iff_ne.mpr (Ne.symm h)
        simpa [List.filter_cons, h, List.lookup, hb] using ih

/-- A registered workspace with a worktree marker, for concrete
counterexamples to C5. -/
def pStale : WsPath := ⟨"/tmp/research_workspaces", "research_agent_deadbeef"⟩

/-- Manager state owning `pStale`. -/
def stStale : WsState :=
  ⟨[pStale], [pStale], ["research/research_agent_deadbeef"],
   [("research_agent_deadbeef", pStale)]⟩

/-- Counterexample to C5: with cleanup-on-exit enabled, removal is
attempted on the registered worktree `pStale` but spawning
`git worktree remove` raises (for instance the git binary is missing); the
exception is caught and logged at line 168 of `workspace_manager.py`, the
`pop` at line 164 never runs, and after the call the registry still holds
the stale record for that path — contradicting "the registry never retains
a stale entry". -/
theorem cleanup_workspace_retains_stale_entry_on_raise :
    cfgSample.workspace.cleanup_on_exit = true ∧
    List.lookup pStale.name
      (cleanup_workspace cfgSample .raisedEarly stStale pStale).registry =
      some pStale := by
  constructor
  · rfl
  · rfl

/-- When cleanup is enabled and the removal step completes without raising,
the post-cleanup registry is the old one with every entry keyed by the
path's id filtered out. -/
theorem cleanup_registry_filtered (cfg : ResearchConfig)
    (removal : RemovalOutcome) (st : WsState) (p : WsPath)
    (hc : cfg.workspace.cleanup_on_exit = true)
    (hr : removal = .ok ∨ removal = .rcFail) :
    (cleanup_workspace cfg removal st p).registry =
      st.registry.filter (fun e => decide (e.1 ≠ p.name)) := by
  rcases hr with rfl | rfl <;>
  · unfold cleanup_workspace
    by_cases hwt : st.gitFile.contains p = true
    · rw [if_neg (by simp [hc]), if_pos hwt]
    · rw [if_neg (by simp [hc]), if_neg hwt]

/-- C5 as amended: whenever the removal step completes without raising —
including the partial failure where `git worktree remove` exits non-zero
and the fallback `rmtree` runs — the workspace's record is removed from the
registry; only when the removal helper itself raises does the (suppressed)
exception skip the unregistration. -/
theorem cleanup_workspace_unregisters_when_no_raise (cfg : ResearchConfig)
    (removal : RemovalOutcome) (st : WsState) (p : WsPath)
    (hc : cfg.workspace.cleanup_on_exit = true)
    (hr : removal = .ok ∨ removal = .rcFail) :
    List.lookup p.name
      (cleanup_workspace cfg removal st p).registry = none := by
  rw [cleanup_registry_filtered cfg removal st p hc hr]
  exact lookup_filter_ne_key p.name st.registry

/-- Witness for C5's amended theorem: the partial-failure outcome
(`git worktree remove` exits non-zero) still unregisters `pStale`. -/
theorem cleanup_workspace_unregisters_when_no_raise_witness :
    List.lookup pStale.name
      (cleanup_workspace cfgSample .rcFail stStale pStale).registry = none :=
  cleanup_workspace_unregisters_when_no_raise cfgSample .rcFail stStale pStale
    rfl (Or.inr rfl)

/-- When cleanup is enabled and the removal step completes without raising,
the post-cleanup filesystem is the old one with the workspace root filtered
out. -/
theorem cleanup_fs_filtered (cfg : ResearchConfig) (removal : RemovalOutcome)
    (st : WsState) (p : WsPath) (hc : cfg.workspace.cleanup_on_exit = true)
    (hr : removal = .ok ∨ removal = .rcFail) :
    (cleanup_workspace cfg removal st p).fs =
      st.fs.filter (fun q => decide (q ≠ p)) := by
  rcases hr with rfl | rfl <;>
  · unfold cleanup_workspace
    by_cases hwt : st.gitFile.contains p = true
    · rw [if_neg (by simp [hc]), if_pos hwt]
    · rw [if_neg (by simp [hc]), if_neg hwt]

/-- After a completed cleanup the path no longer carries the worktree
marker. -/
theorem cleanup_gitFile_no_marker (cfg : ResearchConfig)
    (removal : RemovalOutcome) (st : WsState) (p : WsPath)
    (hc : cfg.workspace.cleanup_on_exit = true)
    (hr : removal = .ok ∨ removal = .rcFail) :
    (cleanup_workspace cfg removal st p).gitFile.contains p = false := by
  rcases hr with rfl | rfl <;>
  · unfold cleanup_workspace
    by_cases hwt : st.gitFile.contains p = true
    · rw [if_neg (by simp [hc]), if_pos hwt]
      simp
    · rw [if_neg (by simp [hc]), if_neg hwt]
      simpa using hwt

/-- A registered worktree workspace, for concrete instantiations of the C6
theorems. -/
def pGone : WsPath := ⟨"/tmp/research_workspaces", "research_other_cafebabe"⟩

/-- Manager state owning `pGone`. -/
def stGone : WsState :=
  ⟨[pGone], [pGone], ["research/research_other_cafebabe"],
   [("research_other_cafebabe", pGone)]⟩

/-- Counterexample to C6: with cleanup-on-exit enabled, when spawning
`git worktree remove` for the registered worktree `pGone` raises (git
binary missing), `cleanup_workspace` suppresses the exception and returns
with the directory still on disk — the existence check after the call
returns true, not false. -/
theorem cleanup_workspace_leaves_directory_on_raise :
    cfgSample.workspace.cleanup_on_exit = true ∧
    pGone ∈ (cleanup_workspace cfgSample .raisedEarly stGone pGone).fs := by
  exact ⟨rfl, by decide⟩

/-- C6 as amended: with cleanup-on-exit enabled, provided the removal step
completes without raising (non-zero exit of `git worktree remove` with the
`rmtree` fallback included), the filesystem existence check on the path
returns false after `cleanup_workspace`, and a second `cleanup_workspace`
on the same path — under any git behaviour — is a no-op returning the state
unchanged. -/
theorem cleanup_workspace_idempotent_when_no_raise (cfg : ResearchConfig)
    (removal removal2 : RemovalOutcome) (st : WsState) (p : WsPath)
    (hc : cfg.workspace.cleanup_on_exit = true)
    (hr : removal = .ok ∨ removal = .rcFail) :
    p ∉ (cleanup_workspace cfg removal st p).fs ∧
    cleanup_workspace cfg removal2 (cleanup_workspace cfg removal st p) p =
      cleanup_workspace cfg removal st p := by
  have hfs := cleanup_fs_filtered cfg removal st p hc hr
  have hgit := cleanup_gitFile_no_marker cfg removal st p hc hr
  have hreg := cleanup_registry_filtered cfg removal st p hc hr
  set st1 := cleanup_workspace cfg removal st p with hst1
  constructor
  · intro hmem
    rw [hfs] at hmem
    have := (List.mem_filter.mp hmem).2
    simp at this
  · have hfs1 : st1.fs.filter (fun q => decide (q ≠ p)) = st1.fs := by
      apply List.filter_eq_self.mpr
      intro a ha
      rw [hfs] at ha
      exact (List.mem_filter.mp ha).2
    have hreg1 : st1.registry.filter (fun e => decide (e.1 ≠ p.name)) =
        st1.registry := by
      apply List.filter_eq_self.mpr
      intro e he
      rw [hreg] at he
      exact (List.mem_filter.mp he).2
    unfold cleanup_workspace
    rw [if_neg (by simp [hc]), if_neg (by rw [hgit]; simp)]
    rw [hfs1, hreg1]

/-- Witness for C6's amended theorem: cleaning up `pGone` removes it from
disk, and a second cleanup — even one whose git spawn would raise — changes
nothing. -/
theorem cleanup_workspace_idempotent_when_no_raise_witness :
    pGone ∉ (cleanup_workspace cfgSample .ok stGone pGone).fs ∧
    cleanup_workspace cfgSample .raisedEarly
        (cleanup_workspace cfgSample .ok stGone pGone) pGone =
      cleanup_workspace cfgSample .ok stGone pGone :=
  cleanup_workspace_idempotent_when_no_raise cfgSample .ok .raisedEarly
    stGone pGone rfl (Or.inl rfl)

/-- Two workspace ids built from equal-length suffixes agree on their
suffixes when they are equal as strings: the id ends with the 8-character
random suffix, so distinct suffixes force distinct ids, whatever the agent
names. -/
theorem workspace_id_suffix_inj (cfg : ResearchConfig) (a1 a2 s1 s2 : String)
    (h1 : s1.length = 8) (h2 : s2.length = 8)
    (h : workspace_id cfg a1 s1 = workspace_id cfg a2 s2) : s1 = s2 := by
  unfold workspace_id at h
  have hd := congrArg String.data h
  simp only [String.data_append] at hd
  have hlen : s1.data.length = s2.data.length := by
    rw [show s1.data.length = s1.length from rfl,
        show s2.data.length = s2.length from rfl, h1, h2]
  have hs := (List.append_inj' hd hlen).2
  cases s1; cases s2; simp_all

/-- C7: for every family of `create_workspace` calls (arbitrary agent
names) whose random 8-character suffixes are pairwise distinct, the
generated workspace ids are pairwise distinct; and every call that returns
does so with its workspace directory existing — in both the worktree and
the plain-directory branch.  (The suffix is `uuid.uuid4().hex[:8]`, drawn
from the `os.urandom`-backed UUID4 generator, not a counter or clock; the
randomness source itself lives outside the embedding.) -/
theorem create_workspace_unique_ids_and_dirs_exist (cfg : ResearchConfig)
    (calls : List (String × String))
    (hlen : ∀ c ∈ calls, (wsSuffix c.2).length = 8)
    (hdist : calls.Pairwise (fun c d => wsSuffix c.2 ≠ wsSuffix d.2))
    (agent uuidHex : String) (use_worktree : Option Bool)
    (isGitRepo wtAddOk : Bool) (st : WsState) (p : WsPath) (st' : WsState)
    (hcreate : create_workspace cfg agent use_worktree uuidHex isGitRepo
      wtAddOk st = .ok (p, st')) :
    (calls.map (fun c => workspace_id cfg c.1 (wsSuffix c.2))).Pairwise (· ≠ ·) ∧
    p ∈ st'.fs := by
  constructor
  · rw [List.pairwise_map]
    refine hdist.imp_of_mem ?_
    intro c d hc hd hne heq
    exact hne (workspace_id_suffix_inj cfg c.1 d.1 _ _ (hlen c hc) (hlen d hd) heq)
  · simp only [create_workspace] at hcreate
    split at hcreate
    · split at hcreate
      · simp only [Except.ok.injEq, Prod.mk.injEq] at hcreate
        obtain ⟨hp, hst⟩ := hcreate
        subst hp; subst hst
        exact List.mem_cons_self _ _
      · exact absurd hcreate (by simp)
    · simp only [Except.ok.injEq, Prod.mk.injEq] at hcreate
      obtain ⟨hp, hst⟩ := hcreate
      subst hp; subst hst
      exact List.mem_cons_self _ _

/-- Witness for C7: two draws with distinct suffixes give distinct ids,
and a concrete (non-worktree) creation returns with its directory present
in the resulting state. -/
theorem create_workspace_unique_ids_and_dirs_exist_witness :
    (([("writer", "0123456789abcdef0123456789abcdef"),
       ("writer", "f123456789abcdef0123456789abcdef")] :
        List (String × String)).map
      (fun c => workspace_id cfgSample c.1 (wsSuffix c.2))).Pairwise (· ≠ ·) ∧
    (⟨"/tmp/research_workspaces", "research_writer_01234567"⟩ : WsPath) ∈
      (⟨[⟨"/tmp/research_workspaces", "research_writer_01234567"⟩], [], [],
        [("research_writer_01234567",
          ⟨"/tmp/research_workspaces", "research_writer_01234567"⟩)]⟩ :
        WsState).fs :=
  create_workspace_unique_ids_and_dirs_exist cfgSample
    [("writer", "0123456789abcdef0123456789abcdef"),
     ("writer", "f123456789abcdef0123456789abcdef")]
    (by decide) (by decide)
    "writer" "0123456789abcdef0123456789abcdef" none false true stEmpty
    ⟨"/tmp/research_workspaces", "research_writer_01234567"⟩
    ⟨[⟨"/tmp/research_workspaces", "research_writer_01234567"⟩], [], [],
     [("research_writer_01234567",
       ⟨"/tmp/research_workspaces", "research_writer_01234567"⟩)]⟩
    rfl

/-! ## Claim C9: agent-definition seeding -/

/-- One copy step of `copyMdFiles`, unfolded. -/
theorem copyMdFiles_cons (f : String × String) (rest dst : List (String × String)) :
    copyMdFiles (f :: rest) dst =
      copyMdFiles rest (if matchesMdGlob f.1 then copyFile dst f else dst) := rfl

/-- After copying a file, looking up its name yields its contents. -/
theorem lookup_copyFile_self (d : List (String × String)) (f : String × String) :
    List.lookup f.1 (copyFile d f) = some f.2 := by
  obtain ⟨n, v⟩ := f
  simp [copyFile, List.lookup]

/-- Filtering out entries of a different key leaves a lookup unchanged. -/
theorem lookup_filter_other {β : Type} (k a : String) (l : List (String × β))
    (h : k ≠ a) :
    List.lookup k (l.filter fun g => decide (g.1 ≠ a)) = List.lookup k l := by
  induction l with
  | nil => rfl
  | cons f rest ih =>
      obtain ⟨n, v⟩ := f
      rw [List.filter_cons]
      by_cases hf : n = a
      · rw [if_neg (by simp [hf])]
        have hb : (k == n) = false := beq_eq_false_iff_ne.mpr (by rw [hf]; exact h)
        rw [ih]
        simp [List.lookup, hb]
      · rw [if_pos (by simp [hf])]
        by_cases hk : k = n
        · have hb : (k == n) = true := beq_iff_eq.mpr hk
          simp [List.lookup, hb]
        · have hb : (k == n) = false := beq_eq_false_iff_ne.mpr hk
          simp only [List.lookup, hb]
          exact ih

/-- Copying a file leaves lookups of other names unchanged. -/
theorem lookup_copyFile_other (d : List (String × String)) (f : String × String)
    (k : String) (h : k ≠ f.1) :
    List.lookup k (copyFile d f) = List.lookup k d := by
  obtain ⟨n, v⟩ := f
  have hb : (k == n) = false := beq_eq_false_iff_ne.mpr h
  rw [copyFile]
  simp only [List.lookup, hb]
  exact lookup_filter_other k n d h

/-- A copy pass over a source directory that holds no matching file of the
given name leaves that name's lookup unchanged. -/
theorem lookup_copyMdFiles_not_mem (src : List (String × String))
    (d : List (String × String)) (k : String)
    (h : ∀ f ∈ src, matchesMdGlob f.1 → k ≠ f.1) :
    List.lookup k (copyMdFiles src d) = List.lookup k d := by
  induction src generalizing d with
  | nil => rfl
  | cons f rest ih =>
      rw [copyMdFiles_cons, ih _ (fun g hg => h g (List.mem_cons_of_mem f hg))]
      by_cases hmd : matchesMdGlob f.1
      · rw [if_pos hmd, lookup_copyFile_other d f k (h f (List.mem_cons_self f rest) hmd)]
      · rw [if_neg hmd]

/-- A copy pass over a source directory with distinct filenames installs
each matching file's contents under its name, whatever the destination
held. -/
theorem lookup_copyMdFiles_mem (src : List (String × String))
    (d : List (String × String)) (k c : String)
    (hnd : (src.map Prod.fst).Nodup) (hmem : (k, c) ∈ src)
    (hmd : matchesMdGlob k = true) :
    List.lookup k (copyMdFiles src d) = some c := by
  induction src generalizing d with
  | nil => cases hmem
  | cons f rest ih =>
      have hnd' : f.1 ∉ rest.map Prod.fst ∧ (rest.map Prod.fst).Nodup := by
        simpa using hnd
      rcases List.mem_cons.mp hmem with heq | hrest
      · have hf1 : f.1 = k := by rw [← heq]
        have hf2 : f.2 = c := by rw [← heq]
        have hnotin : ∀ g ∈ rest, matchesMdGlob g.1 → k ≠ g.1 := by
          intro g hg _ hkg
          have hkmem : k ∈ rest.map Prod.fst := List.mem_map.mpr ⟨g, hg, hkg.symm⟩
          rw [hf1] at hnd'
          exact hnd'.1 hkmem
        rw [copyMdFiles_cons, lookup_copyMdFiles_not_mem rest _ k hnotin,
            if_pos (by rw [hf1]; exact hmd), ← hf1, ← hf2]
        exact lookup_copyFile_self d f
      · rw [copyMdFiles_cons]
        exact ih _ hnd'.2 hrest

/-- C9: seeding copies every `*.md` file of the (existing) user-level agent
directory, then every `*.md` file of the project-level directory when it
exists and is a different path; hence a name present in both directories
with different contents ends up with the project-level content (project
overrides user, last write wins), while a user file with no matching
project counterpart keeps the user-level content. -/
theorem setup_agent_definitions_project_overrides
    (agentsDir userAgents projectAgents : List (String × String))
    (name cu cp name2 cu2 : String)
    (huser_nd : (userAgents.map Prod.fst).Nodup)
    (hproj_nd : (projectAgents.map Prod.fst).Nodup)
    (hmd : matchesMdGlob name = true)
    (_hu : (name, cu) ∈ userAgents)
    (hp : (name, cp) ∈ projectAgents)
    (_hne : cu ≠ cp)
    (hmd2 : matchesMdGlob name2 = true)
    (hu2 : (name2, cu2) ∈ userAgents)
    (hnot2 : ∀ f ∈ projectAgents, matchesMdGlob f.1 → name2 ≠ f.1) :
    List.lookup name (setup_agent_definitions agentsDir true userAgents
      true false projectAgents) = some cp ∧
    List.lookup name2 (setup_agent_definitions agentsDir true userAgents
      true false projectAgents) = some cu2 := by
  have hred : setup_agent_definitions agentsDir true userAgents true false
      projectAgents = copyMdFiles projectAgents (copyMdFiles userAgents agentsDir) := rfl
  rw [hred]
  constructor
  · exact lookup_copyMdFiles_mem projectAgents _ name cp hproj_nd hp hmd
  · rw [lookup_copyMdFiles_not_mem projectAgents _ name2 hnot2]
    exact lookup_copyMdFiles_mem userAgents _ name2 cu2 huser_nd hu2 hmd2

/-- Witness for C9: `foo.md` exists in both directories with different
contents and the seeded workspace holds the project-level version, while
`bar.md` — user-level only — keeps the user-level contents. -/
theorem setup_agent_definitions_project_overrides_witness :
    List.lookup "foo.md" (setup_agent_definitions []
      true [("foo.md", "user foo"), ("bar.md", "user bar")]
      true false [("foo.md", "project foo")]) = some "project foo" ∧
    List.lookup "bar.md" (setup_agent_definitions []
      true [("foo.md", "user foo"), ("bar.md", "user bar")]
      true false [("foo.md", "project foo")]) = some "user bar" :=
  setup_agent_definitions_project_overrides []
    [("foo.md", "user foo"), ("bar.md", "user bar")]
    [("foo.md", "project foo")]
    "foo.md" "user foo" "project foo" "bar.md" "user bar"
    (by decide) (by decide) (by decide) (by decide) (by decide) (by decide)
    (by decide) (by decide) (by decide)

end Helios
